import Mathlib

/-!
Verification development for the xTrimoMultimer repository.

Part 1 embeds the distributed MSA attention stack of
`xtrimomultimer/model_acc/msa.py` (`MSARowAttentionWithPairBias`,
`MSAColumnAttention`, `MSAColumnGlobalAttention`, `MSAStack`,
`ExtraMSAStack`) together with the tensor-sharding collectives it calls
(`scatter`, `gather`, `gather_async`, `row_to_col`).  The collectives and
the attention / transition / layer-norm kernels live outside the scanned
sources, so they are modelled from the specification; the stack and block
forward passes are translated line by line from `msa.py`.

The MSA node tensor is 4-D (batch, sequence-rows, sequence-columns,
feature) and masks are 3-D; we represent them as a shape quadruple (resp.
triple) plus a total valuation function over indices, with exact rational
values in place of floating point.  SPMD collectives are modelled by
passing the per-rank family of locally computed tensors.

Part 2 embeds the `Protein` data type of `xtrimomultimer/np/protein.py`
(`__post_init__` chain-count check and `from_prediction`), with numpy
arrays modelled as a shape list plus flattened rational data and Python
exceptions as `Except`.
-/

/-- A 4-D tensor (batch, rows, columns, features): shape fields plus a
total valuation on indices.  Only indices below the shape are meaningful. -/
structure T4 where
  nb : Nat
  nr : Nat
  nc : Nat
  nf : Nat
  val : Nat → Nat → Nat → Nat → ℚ

/-- A 3-D mask tensor (batch, rows, columns). -/
structure T3 where
  nb : Nat
  nr : Nat
  nc : Nat
  val : Nat → Nat → Nat → ℚ

theorem t4Eqv {X Y : T4} (hb : X.nb = Y.nb) (hr : X.nr = Y.nr)
    (hc : X.nc = Y.nc) (hf : X.nf = Y.nf) (hv : X.val = Y.val) : X = Y := by
  cases X; cases Y; simp_all

theorem t3Eqv {X Y : T3} (hb : X.nb = Y.nb) (hr : X.nr = Y.nr)
    (hc : X.nc = Y.nc) (hv : X.val = Y.val) : X = Y := by
  cases X; cases Y; simp_all

/-- Modelled from the spec: `scatter(tensor, dim=1)` from
`model_acc/distributed` (absent from the scanned sources), specialised to
the node layout: worker `r` of `W` keeps its contiguous chunk of the
sequence-row axis. -/
def scatterRow (W r : Nat) (X : T4) : T4 :=
  { nb := X.nb, nr := X.nr / W, nc := X.nc, nf := X.nf,
    val := fun b i j k => X.val b (r * (X.nr / W) + i) j k }

/-- Modelled from the spec: `scatter(tensor, dim=2)`: worker `r` keeps its
contiguous chunk of the sequence-column axis. -/
def scatterCol (W r : Nat) (X : T4) : T4 :=
  { nb := X.nb, nr := X.nr, nc := X.nc / W, nf := X.nf,
    val := fun b i j k => X.val b i (r * (X.nc / W) + j) k }

/-- Modelled from the spec: synchronous `gather` along the row axis —
collects all workers' shards, concatenating in rank order; every worker
receives the reassembled tensor.  `fam j` is the local shard of rank `j`. -/
def gatherRow (W : Nat) (fam : Nat → T4) : T4 :=
  { nb := (fam 0).nb, nr := W * (fam 0).nr, nc := (fam 0).nc, nf := (fam 0).nf,
    val := fun b i j k => (fam (i / (fam 0).nr)).val b (i % (fam 0).nr) j k }

/-- Modelled from the spec: synchronous `gather` along the column axis. -/
def gatherCol (W : Nat) (fam : Nat → T4) : T4 :=
  { nb := (fam 0).nb, nr := (fam 0).nr, nc := W * (fam 0).nc, nf := (fam 0).nf,
    val := fun b i j k => (fam (j / (fam 0).nc)).val b i (j % (fam 0).nc) k }

/-- Modelled from the spec: `row_to_col` — the all-to-all that redistributes
a row-sharded tensor into a column-sharded one, each rank concatenating the
fragments received from every rank along the row axis; equivalently,
gathering the row shards and keeping this rank's column slice. -/
def rowToCol (W : Nat) (fam : Nat → T4) (r : Nat) : T4 :=
  scatterCol W r (gatherRow W fam)

/-- Modelled from the spec: the hypothetical inverse column-to-row
transform of `row_to_col` (spec section 8). -/
def colToRow (W : Nat) (fam : Nat → T4) (r : Nat) : T4 :=
  scatterRow W r (gatherCol W fam)

/-- Modelled from the spec: `scatter(mask, dim=1)` for the 3-D node mask. -/
def scatterRow3 (W r : Nat) (m : T3) : T3 :=
  { nb := m.nb, nr := m.nr / W, nc := m.nc,
    val := fun b i j => m.val b (r * (m.nr / W) + i) j }

/-- Modelled from the spec: `scatter(mask, dim=2)` for the 3-D node mask. -/
def scatterCol3 (W r : Nat) (m : T3) : T3 :=
  { nb := m.nb, nr := m.nr, nc := m.nc / W,
    val := fun b i j => m.val b i (r * (m.nc / W) + j) }

/-- Modelled from the spec: row-axis `gather` for the 3-D node mask. -/
def gatherRow3 (W : Nat) (fam : Nat → T3) : T3 :=
  { nb := (fam 0).nb, nr := W * (fam 0).nr, nc := (fam 0).nc,
    val := fun b i j => (fam (i / (fam 0).nr)).val b (i % (fam 0).nr) j }

/-- Modelled from the spec: `row_to_col` applied to a 3-D mask. -/
def rowToCol3 (W : Nat) (fam : Nat → T3) (r : Nat) : T3 :=
  scatterCol3 W r (gatherRow3 W fam)

/-- The all-ones node mask of the given shape. -/
def onesT3 (b r c : Nat) : T3 :=
  { nb := b, nr := r, nc := c, val := fun _ _ _ => 1 }

/-- Number of (logical) elements held in a 4-D tensor. -/
def elemCount (X : T4) : Nat := X.nb * X.nr * X.nc * X.nf

theorem gatherRow_scatterRow_val (W : Nat) (X : T4) :
    (gatherRow W (fun j => scatterRow W j X)).val = X.val := by
  funext b i j k
  simp only [gatherRow, scatterRow, Nat.div_add_mod']

theorem gatherCol_scatterCol_val (W : Nat) (X : T4) :
    (gatherCol W (fun j => scatterCol W j X)).val = X.val := by
  funext b i j k
  simp only [gatherCol, scatterCol, Nat.div_add_mod']

theorem gatherRow_scatterRow (W : Nat) (X : T4) (h : W ∣ X.nr) :
    gatherRow W (fun j => scatterRow W j X) = X := by
  refine t4Eqv rfl ?_ rfl rfl (gatherRow_scatterRow_val W X)
  simpa [gatherRow, scatterRow] using Nat.mul_div_cancel' h

theorem gatherCol_scatterCol (W : Nat) (X : T4) (h : W ∣ X.nc) :
    gatherCol W (fun j => scatterCol W j X) = X := by
  refine t4Eqv rfl rfl ?_ rfl (gatherCol_scatterCol_val W X)
  simpa [gatherCol, scatterCol] using Nat.mul_div_cancel' h

theorem gatherRow3_scatterRow3 (W : Nat) (m : T3) (h : W ∣ m.nr) :
    gatherRow3 W (fun j => scatterRow3 W j m) = m := by
  refine t3Eqv rfl ?_ rfl ?_
  · simpa [gatherRow3, scatterRow3] using Nat.mul_div_cancel' h
  · funext b i j
    simp only [gatherRow3, scatterRow3, Nat.div_add_mod']

theorem scatterRow_one (X : T4) : scatterRow 1 0 X = X := by
  refine t4Eqv rfl ?_ rfl rfl ?_
  · simp [scatterRow]
  · funext b i j k
    simp [scatterRow]

theorem scatterCol_one (X : T4) : scatterCol 1 0 X = X := by
  refine t4Eqv rfl rfl ?_ rfl ?_
  · simp [scatterCol]
  · funext b i j k
    simp [scatterCol]

theorem scatterRow3_one (m : T3) : scatterRow3 1 0 m = m := by
  refine t3Eqv rfl ?_ rfl ?_
  · simp [scatterRow3]
  · funext b i j
    simp [scatterRow3]

theorem scatterCol3_one (m : T3) : scatterCol3 1 0 m = m := by
  refine t3Eqv rfl rfl ?_ ?_
  · simp [scatterCol3]
  · funext b i j
    simp [scatterCol3]

/-- Modelled from the spec: `LayerNorm` from `model_acc/kernel` (absent from
the scanned sources) — a learned per-position transformation of the feature
vector, applied independently at every (batch, row, column) position; the
per-vector arithmetic is kept abstract in the field `f`. -/
structure LayerNormM where
  f : (Nat → ℚ) → Nat → ℚ

/-- Apply a layer norm over the feature axis of a 4-D tensor. -/
def lnApply (L : LayerNormM) (X : T4) : T4 :=
  { X with val := fun b i j k => L.f (fun k2 => X.val b i j k2) k }

/-- The projection `F.linear(Z, w)`: per-position linear projection of the `dpair`
feature channels into `H` per-head bias channels. -/
def linearB (H dpair : Nat) (w : Nat → Nat → ℚ) (Z : T4) : T4 :=
  { Z with
    nf := H,
    val := fun b i j h => ∑ k ∈ Finset.range dpair, w h k * Z.val b i j k }

/-- Modelled from the spec: `SelfAttention` from `model_acc/ops` (absent
from the scanned sources) — multi-head scaled dot-product attention with
additive mask, optional pair bias and sigmoid gating, computed over the
innermost two axes of a 3-D view: each (batch, dim-1) slice is processed
independently as a function of that slice, its mask row, and the bias.
The per-slice arithmetic is kept abstract in the field `kern`. -/
structure SelfAttentionM where
  kern : (Nat → Nat → ℚ) → (Nat → ℚ) → Option (Nat → Nat → Nat → ℚ) → Nat → Nat → ℚ

/-- Apply self-attention independently to every (batch, dim-1) slice. -/
def selfAttnApply (A : SelfAttentionM) (M : T4) (mask : T3) (bias : Option T4) : T4 :=
  { M with
    val := fun b i j k =>
      A.kern (fun j2 k2 => M.val b i j2 k2) (fun j2 => mask.val b i j2)
        (Option.map (fun B2 q k2 h => B2.val b q k2 h) bias) j k }

/-- Modelled from the spec: `GlobalAttention` from `model_acc/ops` (absent
from the scanned sources) — global attention averaging queries over the
attended axis; each (batch, dim-1) slice is processed independently.  The
per-slice arithmetic is kept abstract in the field `kern`. -/
structure GlobalAttentionM where
  kern : (Nat → Nat → ℚ) → (Nat → ℚ) → Nat → Nat → ℚ

/-- Apply global attention independently to every (batch, dim-1) slice. -/
def globalAttnApply (G : GlobalAttentionM) (M : T4) (mask : T3) : T4 :=
  { M with
    val := fun b i j k =>
      G.kern (fun j2 k2 => M.val b i j2 k2) (fun j2 => mask.val b i j2) j k }

/-- Modelled from the spec: the opaque communication handle produced by
`gather_async`; `wait` on it yields the finalized gathered tensor. -/
structure CommHandle where
  finished : T4

/-- Modelled from the spec: `gather_async(b, dim=1)` from
`model_acc/distributed/comm_async` (absent from the scanned sources) —
starts the row-axis gather collective and returns immediately with the
not-yet-finalized local tensor and a handle. -/
def gatherRowAsync (W : Nat) (fam : Nat → T4) (r : Nat) : T4 × CommHandle :=
  (fam r, { finished := gatherRow W fam })

/-- Modelled from the spec: waiting on an async-gather handle returns the
finalized gathered tensor. -/
def waitComm (p : T4 × CommHandle) : T4 := p.2.finished

/-- Modelled from the spec: the fused `bias_dropout_add` kernel from
`model_acc/kernel` (absent from the scanned sources) — add bias, apply the
dropout mask during training only, add the residual. -/
def bias_dropout_add (x : T4) (bias : Nat → ℚ) (dmask : T4) (residual : T4)
    (prob : ℚ) (training : Bool) : T4 :=
  { residual with
    val := fun b i j k =>
      (if training then dmask.val b 0 j k * (x.val b i j k + bias k)
       else x.val b i j k + bias k) + residual.val b i j k }

/-- The dropout mask `torch.ones_like(M[:, 0:1, :, :])` built in
`MSARowAttentionWithPairBias.forward`. -/
def onesLikeRow1 (X : T4) : T4 :=
  { X with nr := 1, val := fun _ _ _ _ => 1 }

/-- Module state of `MSARowAttentionWithPairBias` (learned parameters and
sub-modules), mirroring its `__init__`. -/
structure MSARowAttentionWithPairBiasM where
  d_pair : Nat
  n_head : Nat
  p_drop : ℚ
  layernormM : LayerNormM
  layernormZ : LayerNormM
  linear_b_weights : Nat → Nat → ℚ
  attention : SelfAttentionM
  out_bias : Nat → ℚ
  training : Bool

/-- Translation of `MSARowAttentionWithPairBias.forward` from `msa.py`:
layer-norm `M` and `Z`, project `Z` to the per-head bias, gather the bias
asynchronously along dim 1, run self-attention with the row-sharded mask
and the (waited-on) bias, then fused bias+dropout+residual onto the raw
input.  `Zfam j` is the pair shard held by rank `j` (SPMD: every rank runs
the same projection on its own shard, and the collective sees them all). -/
def msaRowAttnForward (A : MSARowAttentionWithPairBiasM) (W r : Nat)
    (M_raw : T4) (Zfam : Nat → T4) (M_mask : T3) : T4 :=
  let M := lnApply A.layernormM M_raw
  let Zn := fun j => lnApply A.layernormZ (Zfam j)
  let bfam := fun j => linearB A.n_head A.d_pair A.linear_b_weights (Zn j)
  let bw := gatherRowAsync W bfam r
  let M2 := selfAttnApply A.attention M M_mask (some (waitComm bw))
  let dropout_mask := onesLikeRow1 M2
  bias_dropout_add M2 A.out_bias dropout_mask M_raw A.p_drop A.training

/-- Transpose of the first two non-batch axes, `M.transpose(-2, -3)`. -/
def transposeT4 (X : T4) : T4 :=
  { nb := X.nb, nr := X.nc, nc := X.nr, nf := X.nf,
    val := fun b i j k => X.val b j i k }

/-- Transpose of the mask, `M_mask.transpose(-1, -2)`. -/
def transposeT3 (m : T3) : T3 :=
  { nb := m.nb, nr := m.nc, nc := m.nr, val := fun b i j => m.val b j i }

/-- Pointwise sum of two 4-D tensors (the residual addition `M_raw + M`). -/
def addT4 (X Y : T4) : T4 :=
  { X with val := fun b i j k => X.val b i j k + Y.val b i j k }

/-- Module state of `MSAColumnAttention`. -/
structure MSAColumnAttentionM where
  layernormM : LayerNormM
  attention : SelfAttentionM

/-- Translation of `MSAColumnAttention.forward` from `msa.py`: transpose so
the MSA-depth axis is attended, layer-norm, self-attention with the
transposed column-sharded mask, transpose back, residual add. -/
def msaColAttnForward (C : MSAColumnAttentionM) (M_raw : T4) (M_mask : T3) : T4 :=
  let M := transposeT4 M_raw
  let M1 := lnApply C.layernormM M
  let mt := transposeT3 M_mask
  let M2 := selfAttnApply C.attention M1 mt none
  let M3 := transposeT4 M2
  addT4 M_raw M3

/-- Module state of `MSAColumnGlobalAttention`. -/
structure MSAColumnGlobalAttentionM where
  layernormM : LayerNormM
  global_attention : GlobalAttentionM

/-- Translation of `MSAColumnGlobalAttention.forward` from `msa.py`. -/
def msaColGlobalAttnForward (G : MSAColumnGlobalAttentionM) (M_raw : T4) (M_mask : T3) : T4 :=
  let M := transposeT4 M_raw
  let M1 := lnApply G.layernormM M
  let mt := transposeT3 M_mask
  let M2 := globalAttnApply G.global_attention M1 mt
  let M3 := transposeT4 M2
  addT4 M_raw M3

/-- Modelled from the spec: `Transition` from `model_acc/ops` (absent from
the scanned sources) — a two-layer feed-forward applied independently at
every position, added residually; the per-vector arithmetic is kept
abstract in the field `f`. -/
structure TransitionM where
  f : (Nat → ℚ) → Nat → ℚ

/-- Apply the transition block (feed-forward with residual). -/
def transitionForward (T : TransitionM) (X : T4) : T4 :=
  { X with val := fun b i j k => X.val b i j k + T.f (fun k2 => X.val b i j k2) k }

/-- Module state of `MSAStack`. -/
structure MSAStackM where
  MSARowAttentionWithPairBias : MSARowAttentionWithPairBiasM
  MSAColumnAttention : MSAColumnAttentionM
  MSATransition : TransitionM

/-- Translation of `MSAStack.forward` from `msa.py`: scatter the node mask
along the row axis, row attention with pair bias, `row_to_col` reshard
(the all-to-all sees every rank's row-attention output, each computed by
the same SPMD code path), scatter the original mask along the column axis,
column attention, transition.  `nodeFam j` / `pairFam j` are the
pre-sharded inputs held by rank `j`; the result is rank `r`'s output. -/
def msaStackForward (S : MSAStackM) (W r : Nat)
    (nodeFam : Nat → T4) (pairFam : Nat → T4) (node_mask : T3) : T4 :=
  let rowOut := fun r2 =>
    msaRowAttnForward S.MSARowAttentionWithPairBias W r2 (nodeFam r2) pairFam
      (scatterRow3 W r2 node_mask)
  let node2 := rowToCol W rowOut r
  let node_mask_col := scatterCol3 W r node_mask
  let node3 := msaColAttnForward S.MSAColumnAttention node2 node_mask_col
  transitionForward S.MSATransition node3

/-- Module state of `ExtraMSAStack`. -/
structure ExtraMSAStackM where
  MSARowAttentionWithPairBias : MSARowAttentionWithPairBiasM
  MSAColumnAttention : MSAColumnGlobalAttentionM
  MSATransition : TransitionM

/-- Translation of `ExtraMSAStack.forward` from `msa.py`: identical pipeline
to `MSAStack.forward` except that column attention is global. -/
def extraMsaStackForward (E : ExtraMSAStackM) (W r : Nat)
    (nodeFam : Nat → T4) (pairFam : Nat → T4) (node_mask : T3) : T4 :=
  let rowOut := fun r2 =>
    msaRowAttnForward E.MSARowAttentionWithPairBias W r2 (nodeFam r2) pairFam
      (scatterRow3 W r2 node_mask)
  let node2 := rowToCol W rowOut r
  let node_mask_col := scatterCol3 W r node_mask
  let node3 := msaColGlobalAttnForward E.MSAColumnAttention node2 node_mask_col
  transitionForward E.MSATransition node3

/-- The row-attention block applied to full (unsharded) tensors: the
reference computation that a single worker (world size 1) performs. -/
def msaRowAttnFull (A : MSARowAttentionWithPairBiasM) (N P : T4) (mask : T3) : T4 :=
  let M := lnApply A.layernormM N
  let bF := linearB A.n_head A.d_pair A.linear_b_weights (lnApply A.layernormZ P)
  let M2 := selfAttnApply A.attention M mask (some bF)
  bias_dropout_add M2 A.out_bias (onesLikeRow1 M2) N A.p_drop A.training

/-- The whole MSA stack applied to full (unsharded) tensors. -/
def msaStackFull (S : MSAStackM) (N P : T4) (mask : T3) : T4 :=
  transitionForward S.MSATransition
    (msaColAttnForward S.MSAColumnAttention
      (msaRowAttnFull S.MSARowAttentionWithPairBias N P mask) mask)

theorem msaRowAttn_scatter (A : MSARowAttentionWithPairBiasM) (W r : Nat)
    (N P : T4) (mask : T3) (hm : mask.nr = N.nr) :
    msaRowAttnForward A W r (scatterRow W r N) (fun j => scatterRow W j P)
      (scatterRow3 W r mask)
      = scatterRow W r (msaRowAttnFull A N P mask) := by
  refine t4Eqv rfl rfl rfl rfl ?_
  funext b i j k
  simp only [msaRowAttnForward, msaRowAttnFull, lnApply, linearB, selfAttnApply,
    bias_dropout_add, onesLikeRow1, gatherRowAsync, waitComm, gatherRow, scatterRow,
    scatterRow3, Option.map_some', hm, Nat.div_add_mod']

theorem msaColAttn_scatter (C : MSAColumnAttentionM) (W r : Nat) (X : T4) (m : T3)
    (hc : m.nc = X.nc) :
    msaColAttnForward C (scatterCol W r X) (scatterCol3 W r m)
      = scatterCol W r (msaColAttnForward C X m) := by
  refine t4Eqv rfl rfl rfl rfl ?_
  funext b i j k
  simp only [msaColAttnForward, transposeT4, transposeT3, lnApply, selfAttnApply,
    addT4, scatterCol, scatterCol3, Option.map_none', hc]

theorem transition_scatterCol (T : TransitionM) (W r : Nat) (X : T4) :
    transitionForward T (scatterCol W r X) = scatterCol W r (transitionForward T X) := by
  refine t4Eqv rfl rfl rfl rfl ?_
  funext b i j k
  simp only [transitionForward, scatterCol]

/-- Distributed `MSAStack.forward` on pre-sharded inputs equals this rank's
column shard of the full single-tensor computation. -/
theorem msaStack_scatter (S : MSAStackM) (W r : Nat) (N P : T4) (mask : T3)
    (hWr : W ∣ N.nr) (hmr : mask.nr = N.nr) (hmc : mask.nc = N.nc) :
    msaStackForward S W r (fun j => scatterRow W j N) (fun j => scatterRow W j P) mask
      = scatterCol W r (msaStackFull S N P mask) := by
  have hrow : (fun r2 => msaRowAttnForward S.MSARowAttentionWithPairBias W r2
      (scatterRow W r2 N) (fun j => scatterRow W j P) (scatterRow3 W r2 mask))
      = fun r2 => scatterRow W r2 (msaRowAttnFull S.MSARowAttentionWithPairBias N P mask) :=
    funext fun r2 => msaRowAttn_scatter _ _ _ _ _ _ hmr
  simp only [msaStackForward, rowToCol, msaStackFull]
  rw [hrow,
    gatherRow_scatterRow W (msaRowAttnFull S.MSARowAttentionWithPairBias N P mask) hWr,
    msaColAttn_scatter S.MSAColumnAttention W r
      (msaRowAttnFull S.MSARowAttentionWithPairBias N P mask) mask hmc,
    transition_scatterCol]

/-- C1: for every MSA tensor of shape [1, 8, 16, 4] with an all-ones mask,
running `MSAStack.forward` on a 2-worker group and reassembling the two
workers' column-sharded outputs by gathering (concatenating in rank order)
yields the same tensor as running the identical stack with world size 1 on
the same input (exact equality in the rational-valued model, which
subsumes the float tolerance 1e-5 of the spec scenario). -/
theorem msaStack_two_workers_eq_single_worker (S : MSAStackM) (N P : T4)
    (hb : N.nb = 1) (hr : N.nr = 8) (hc : N.nc = 16) (hf : N.nf = 4) :
    gatherCol 2 (fun r => msaStackForward S 2 r (fun j => scatterRow 2 j N)
        (fun j => scatterRow 2 j P) (onesT3 N.nb N.nr N.nc))
      = msaStackForward S 1 0 (fun j => scatterRow 1 j N)
        (fun j => scatterRow 1 j P) (onesT3 N.nb N.nr N.nc) := by
  have h2r : (2 : Nat) ∣ N.nr := by rw [hr]; decide
  have h2c : (2 : Nat) ∣ (msaStackFull S N P (onesT3 N.nb N.nr N.nc)).nc := by
    show (2 : Nat) ∣ N.nc
    rw [hc]; decide
  have hfam : (fun r => msaStackForward S 2 r (fun j => scatterRow 2 j N)
      (fun j => scatterRow 2 j P) (onesT3 N.nb N.nr N.nc))
      = fun r => scatterCol 2 r (msaStackFull S N P (onesT3 N.nb N.nr N.nc)) :=
    funext fun r => msaStack_scatter S 2 r N P (onesT3 N.nb N.nr N.nc) h2r rfl rfl
  rw [hfam, gatherCol_scatterCol 2 _ h2c,
    msaStack_scatter S 1 0 N P (onesT3 N.nb N.nr N.nc) (one_dvd _) rfl rfl,
    scatterCol_one]

/-- A layer norm instance used for concrete evaluations. -/
def sampleLN : LayerNormM := { f := fun v k => v k }

/-- A self-attention kernel instance used for concrete evaluations. -/
def sampleSA : SelfAttentionM := { kern := fun s _ _ j k => s j k }

/-- A global-attention kernel instance used for concrete evaluations. -/
def sampleGA : GlobalAttentionM := { kern := fun s _ j k => s j k }

/-- A row-attention module instance used for concrete evaluations. -/
def sampleRowAttn : MSARowAttentionWithPairBiasM :=
  { d_pair := 4, n_head := 8, p_drop := 0, layernormM := sampleLN,
    layernormZ := sampleLN, linear_b_weights := fun _ _ => 1,
    attention := sampleSA, out_bias := fun _ => 0, training := false }

/-- A column-attention module instance used for concrete evaluations. -/
def sampleColAttn : MSAColumnAttentionM :=
  { layernormM := sampleLN, attention := sampleSA }

/-- A global column-attention module instance used for concrete evaluations. -/
def sampleColGlobalAttn : MSAColumnGlobalAttentionM :=
  { layernormM := sampleLN, global_attention := sampleGA }

/-- A transition module instance used for concrete evaluations. -/
def sampleTransition : TransitionM := { f := fun v k => v k }

/-- An `MSAStack` instance used for concrete evaluations. -/
def sampleStack : MSAStackM :=
  { MSARowAttentionWithPairBias := sampleRowAttn,
    MSAColumnAttention := sampleColAttn, MSATransition := sampleTransition }

/-- An `ExtraMSAStack` instance used for concrete evaluations. -/
def sampleExtraStack : ExtraMSAStackM :=
  { MSARowAttentionWithPairBias := sampleRowAttn,
    MSAColumnAttention := sampleColGlobalAttn, MSATransition := sampleTransition }

/-- A concrete [1, 8, 16, 4] MSA tensor. -/
def sampleNode : T4 :=
  { nb := 1, nr := 8, nc := 16, nf := 4,
    val := fun _ i j k => ((i * 64 + j * 4 + k : Nat) : ℚ) }

/-- A concrete [1, 16, 16, 4] pair tensor. -/
def samplePair : T4 :=
  { nb := 1, nr := 16, nc := 16, nf := 4,
    val := fun _ i j k => ((i * 100 + j * 5 + k : Nat) : ℚ) }

theorem msaStack_two_workers_eq_single_worker_witness :
    gatherCol 2 (fun r => msaStackForward sampleStack 2 r
        (fun j => scatterRow 2 j sampleNode) (fun j => scatterRow 2 j samplePair)
        (onesT3 sampleNode.nb sampleNode.nr sampleNode.nc))
      = msaStackForward sampleStack 1 0 (fun j => scatterRow 1 j sampleNode)
        (fun j => scatterRow 1 j samplePair)
        (onesT3 sampleNode.nb sampleNode.nr sampleNode.nc) :=
  msaStack_two_workers_eq_single_worker sampleStack sampleNode samplePair
    rfl rfl rfl rfl

/-- C4: every `MSAStack.forward` / `ExtraMSAStack.forward` call executes
exactly row-attention-with-pair-bias on the row-sharded node, then
row-to-column resharding, then column attention (standard self-attention
for `MSAStack`, global attention for `ExtraMSAStack`), then the residual
feed-forward transition; on row-sharded input the returned node tensor is
column-sharded: full row extent, `1/W` of the column extent. -/
theorem msaStack_pipeline_sequence_and_column_sharded
    (S : MSAStackM) (E : ExtraMSAStackM) (W r : Nat)
    (nodeFam pairFam : Nat → T4) (N : T4) (mask : T3) (hW : W ∣ N.nr) :
    (msaStackForward S W r nodeFam pairFam mask
       = transitionForward S.MSATransition
           (msaColAttnForward S.MSAColumnAttention
             (rowToCol W (fun r2 => msaRowAttnForward S.MSARowAttentionWithPairBias
                W r2 (nodeFam r2) pairFam (scatterRow3 W r2 mask)) r)
             (scatterCol3 W r mask)))
  ∧ (extraMsaStackForward E W r nodeFam pairFam mask
       = transitionForward E.MSATransition
           (msaColGlobalAttnForward E.MSAColumnAttention
             (rowToCol W (fun r2 => msaRowAttnForward E.MSARowAttentionWithPairBias
                W r2 (nodeFam r2) pairFam (scatterRow3 W r2 mask)) r)
             (scatterCol3 W r mask)))
  ∧ ((msaStackForward S W r (fun j => scatterRow W j N) pairFam mask).nb = N.nb
      ∧ (msaStackForward S W r (fun j => scatterRow W j N) pairFam mask).nr = N.nr
      ∧ (msaStackForward S W r (fun j => scatterRow W j N) pairFam mask).nc = N.nc / W
      ∧ (msaStackForward S W r (fun j => scatterRow W j N) pairFam mask).nf = N.nf)
  ∧ ((extraMsaStackForward E W r (fun j => scatterRow W j N) pairFam mask).nb = N.nb
      ∧ (extraMsaStackForward E W r (fun j => scatterRow W j N) pairFam mask).nr = N.nr
      ∧ (extraMsaStackForward E W r (fun j => scatterRow W j N) pairFam mask).nc = N.nc / W
      ∧ (extraMsaStackForward E W r (fun j => scatterRow W j N) pairFam mask).nf = N.nf) := by
  refine ⟨rfl, rfl, ⟨rfl, ?_, rfl, rfl⟩, ⟨rfl, ?_, rfl, rfl⟩⟩
  · show W * (N.nr / W) = N.nr
    exact Nat.mul_div_cancel' hW
  · show W * (N.nr / W) = N.nr
    exact Nat.mul_div_cancel' hW

theorem msaStack_pipeline_sequence_and_column_sharded_witness :
    (2 : Nat) ∣ sampleNode.nr
  ∧ (msaStackForward sampleStack 2 1 (fun j => scatterRow 2 j sampleNode)
      (fun j => scatterRow 2 j samplePair) (onesT3 1 8 16)).nr = sampleNode.nr :=
  ⟨by decide,
   (msaStack_pipeline_sequence_and_column_sharded sampleStack sampleExtraStack 2 1
     (fun j => scatterRow 2 j sampleNode) (fun j => scatterRow 2 j samplePair)
     sampleNode (onesT3 1 8 16) (by decide)).2.2.1.2.1⟩

/-- C5: in every `MSAStack`/`ExtraMSAStack` forward call the column-sharded
node mask handed to column attention is `scatter(node_mask, dim=2)` applied
to the original full node mask — not the row-sharded mask resharded through
`row_to_col`; moreover (resolving the spec's open question) the two
derivations agree whenever the row extent divides evenly, so the asymmetry
cannot change values. -/
theorem msaStack_column_mask_from_original_mask
    (S : MSAStackM) (E : ExtraMSAStackM) (W r : Nat)
    (nodeFam pairFam : Nat → T4) (mask : T3) :
    (msaStackForward S W r nodeFam pairFam mask
       = transitionForward S.MSATransition
           (msaColAttnForward S.MSAColumnAttention
             (rowToCol W (fun r2 => msaRowAttnForward S.MSARowAttentionWithPairBias
                W r2 (nodeFam r2) pairFam (scatterRow3 W r2 mask)) r)
             (scatterCol3 W r mask)))
  ∧ (extraMsaStackForward E W r nodeFam pairFam mask
       = transitionForward E.MSATransition
           (msaColGlobalAttnForward E.MSAColumnAttention
             (rowToCol W (fun r2 => msaRowAttnForward E.MSARowAttentionWithPairBias
                W r2 (nodeFam r2) pairFam (scatterRow3 W r2 mask)) r)
             (scatterCol3 W r mask)))
  ∧ (W ∣ mask.nr →
       rowToCol3 W (fun j => scatterRow3 W j mask) r = scatterCol3 W r mask) := by
  refine ⟨rfl, rfl, fun hdvd => ?_⟩
  unfold rowToCol3
  rw [gatherRow3_scatterRow3 W mask hdvd]

theorem msaStack_column_mask_from_original_mask_witness :
    rowToCol3 2 (fun j => scatterRow3 2 j (onesT3 1 8 16)) 0
      = scatterCol3 2 0 (onesT3 1 8 16) :=
  (msaStack_column_mask_from_original_mask sampleStack sampleExtraStack 2 0
    (fun j => scatterRow 2 j sampleNode) (fun j => scatterRow 2 j samplePair)
    (onesT3 1 8 16)).2.2 (by decide)

/-- C6: waiting on the handle returned by the asynchronous gather yields
exactly the synchronous gather of the same inputs, and consequently the
bias tensor consumed by row attention inside
`MSARowAttentionWithPairBias.forward` is the synchronously gathered
projection of the layer-normed pair representation. -/
theorem gather_async_wait_eq_sync_gather :
    (∀ (W : Nat) (fam : Nat → T4) (r : Nat),
       waitComm (gatherRowAsync W fam r) = gatherRow W fam)
  ∧ (∀ (A : MSARowAttentionWithPairBiasM) (W r : Nat) (M_raw : T4)
       (Zfam : Nat → T4) (M_mask : T3),
       msaRowAttnForward A W r M_raw Zfam M_mask
         = bias_dropout_add
             (selfAttnApply A.attention (lnApply A.layernormM M_raw) M_mask
               (some (gatherRow W (fun j => linearB A.n_head A.d_pair
                 A.linear_b_weights (lnApply A.layernormZ (Zfam j))))))
             A.out_bias
             (onesLikeRow1 (selfAttnApply A.attention (lnApply A.layernormM M_raw)
               M_mask (some (gatherRow W (fun j => linearB A.n_head A.d_pair
                 A.linear_b_weights (lnApply A.layernormZ (Zfam j)))))))
             M_raw A.p_drop A.training) :=
  ⟨fun _ _ _ => rfl, fun _ _ _ _ _ _ => rfl⟩

/-- C7: if the attention (resp. transition) sub-module output is exactly
zero (for row attention: including its fused output bias), each MSA block
returns its input unchanged — `MSAColumnAttention` and
`MSAColumnGlobalAttention` return the raw input plus the sub-module
output, `MSARowAttentionWithPairBias` adds its result residually onto the
pre-normalization input, and the transition adds its feed-forward output
residually. -/
theorem msa_blocks_residual_identity_on_zero_submodule
    (C : MSAColumnAttentionM) (G : MSAColumnGlobalAttentionM)
    (A : MSARowAttentionWithPairBiasM) (T : TransitionM) (W r : Nat)
    (X M_raw : T4) (m mask : T3) (Zfam : Nat → T4)
    (hC : ∀ s mk bo j k, C.attention.kern s mk bo j k = 0)
    (hG : ∀ s mk j k, G.global_attention.kern s mk j k = 0)
    (hA : ∀ s mk bo j k, A.attention.kern s mk bo j k = 0)
    (hAb : ∀ k, A.out_bias k = 0)
    (hT : ∀ s k, T.f s k = 0) :
    msaColAttnForward C X m = X
  ∧ msaColGlobalAttnForward G X m = X
  ∧ msaRowAttnForward A W r M_raw Zfam mask = M_raw
  ∧ transitionForward T X = X := by
  refine ⟨?_, ?_, ?_, ?_⟩
  · refine t4Eqv rfl rfl rfl rfl ?_
    funext b i j k
    simp [msaColAttnForward, addT4, transposeT4, transposeT3, selfAttnApply,
      lnApply, hC]
  · refine t4Eqv rfl rfl rfl rfl ?_
    funext b i j k
    simp [msaColGlobalAttnForward, addT4, transposeT4, transposeT3,
      globalAttnApply, lnApply, hG]
  · refine t4Eqv rfl rfl rfl rfl ?_
    funext b i j k
    simp [msaRowAttnForward, bias_dropout_add, selfAttnApply, lnApply,
      onesLikeRow1, gatherRowAsync, waitComm, hA, hAb]
  · refine t4Eqv rfl rfl rfl rfl ?_
    funext b i j k
    simp [transitionForward, hT]

/-- A self-attention module whose kernel output is identically zero. -/
def zeroSA : SelfAttentionM := { kern := fun _ _ _ _ _ => 0 }

/-- A global-attention module whose kernel output is identically zero. -/
def zeroGA : GlobalAttentionM := { kern := fun _ _ _ _ => 0 }

/-- A row-attention module whose attention output and fused bias are zero. -/
def zeroRowAttn : MSARowAttentionWithPairBiasM :=
  { d_pair := 4, n_head := 8, p_drop := 0, layernormM := sampleLN,
    layernormZ := sampleLN, linear_b_weights := fun _ _ => 1,
    attention := zeroSA, out_bias := fun _ => 0, training := false }

/-- A transition module whose feed-forward output is identically zero. -/
def zeroTransition : TransitionM := { f := fun _ _ => 0 }

theorem msa_blocks_residual_identity_on_zero_submodule_witness :
    msaColAttnForward { layernormM := sampleLN, attention := zeroSA }
        sampleNode (onesT3 1 8 16) = sampleNode
  ∧ msaColGlobalAttnForward { layernormM := sampleLN, global_attention := zeroGA }
        sampleNode (onesT3 1 8 16) = sampleNode
  ∧ msaRowAttnForward zeroRowAttn 2 0 sampleNode (fun j => scatterRow 2 j samplePair)
        (scatterRow3 2 0 (onesT3 1 8 16)) = sampleNode
  ∧ transitionForward zeroTransition sampleNode = sampleNode :=
  msa_blocks_residual_identity_on_zero_submodule
    { layernormM := sampleLN, attention := zeroSA }
    { layernormM := sampleLN, global_attention := zeroGA }
    zeroRowAttn zeroTransition 2 0 sampleNode sampleNode (onesT3 1 8 16)
    (scatterRow3 2 0 (onesT3 1 8 16)) (fun j => scatterRow 2 j samplePair)
    (fun _ _ _ _ _ => rfl) (fun _ _ _ _ => rfl) (fun _ _ _ _ _ => rfl)
    (fun _ => rfl) (fun _ _ => rfl)

/-- C8: the stack forward passes are pure deterministic functions of module
parameters, world size, rank and inputs: equal arguments give equal
outputs, and no module state is consumed or produced (the embedding of the
source forwards is a function returning only the output tensor). -/
theorem msaStack_forward_deterministic
    (S1 S2 : MSAStackM) (E1 E2 : ExtraMSAStackM) (W1 W2 r1 r2 : Nat)
    (nf1 nf2 pf1 pf2 : Nat → T4) (m1 m2 : T3)
    (hS : S1 = S2) (hE : E1 = E2) (hW : W1 = W2) (hr : r1 = r2)
    (hn : nf1 = nf2) (hp : pf1 = pf2) (hm : m1 = m2) :
    msaStackForward S1 W1 r1 nf1 pf1 m1 = msaStackForward S2 W2 r2 nf2 pf2 m2
  ∧ extraMsaStackForward E1 W1 r1 nf1 pf1 m1
      = extraMsaStackForward E2 W2 r2 nf2 pf2 m2 := by
  subst hS hE hW hr hn hp hm
  exact ⟨rfl, rfl⟩

theorem msaStack_forward_deterministic_witness :
    msaStackForward sampleStack 2 0 (fun j => scatterRow 2 j sampleNode)
        (fun j => scatterRow 2 j samplePair) (onesT3 1 8 16)
      = msaStackForward sampleStack 2 0 (fun j => scatterRow 2 j sampleNode)
        (fun j => scatterRow 2 j samplePair) (onesT3 1 8 16)
  ∧ extraMsaStackForward sampleExtraStack 2 0 (fun j => scatterRow 2 j sampleNode)
        (fun j => scatterRow 2 j samplePair) (onesT3 1 8 16)
      = extraMsaStackForward sampleExtraStack 2 0 (fun j => scatterRow 2 j sampleNode)
        (fun j => scatterRow 2 j samplePair) (onesT3 1 8 16) :=
  msaStack_forward_deterministic sampleStack sampleStack sampleExtraStack
    sampleExtraStack 2 2 0 0 (fun j => scatterRow 2 j sampleNode)
    (fun j => scatterRow 2 j sampleNode) (fun j => scatterRow 2 j samplePair)
    (fun j => scatterRow 2 j samplePair) (onesT3 1 8 16) (onesT3 1 8 16)
    rfl rfl rfl rfl rfl rfl rfl

theorem lgetD_set_self (l : List Nat) (d a x : Nat) (h : d < l.length) :
    (l.set d a).getD d x = a := by
  simp [List.getD_eq_getElem?_getD, List.getElem?_set_self, h]

theorem lset_getD_self : ∀ (l : List Nat) (d : Nat), d < l.length →
    l.set d (l.getD d 0) = l
  | [], d, h => by simp at h
  | a :: l, 0, _ => by simp
  | a :: l, d + 1, h => by
    simp only [List.getD_cons_succ, List.set_cons_succ, List.cons.injEq, true_and]
    exact lset_getD_self l d (by simpa using h)

/-- A rank-n tensor for the generic collectives: a shape list plus a total
valuation on multi-indices; only indices below the shape are meaningful. -/
structure NTensor where
  shape : List Nat
  val : List Nat → ℚ

/-- Modelled from the spec: the local chunk that `scatter(tensor, dim)`
keeps on worker `r` of `W` — the `r`-th of `W` equal contiguous chunks
along axis `dim`. -/
def scatterChunk (d W r : Nat) (T : NTensor) : NTensor :=
  { shape := T.shape.set d (T.shape.getD d 0 / W),
    val := fun ix => T.val (ix.set d (r * (T.shape.getD d 0 / W) + ix.getD d 0)) }

/-- Modelled from the spec: `scatter(tensor, dim)` from
`model_acc/distributed` (absent from the scanned sources) — splits the
tensor along axis `dim` into equal-sized contiguous chunks, one per
worker, returning this worker's chunk; a size along `dim` that is not
evenly divisible by the worker count is a fatal configuration error. -/
def scatter (d W r : Nat) (T : NTensor) : Except String NTensor :=
  if W ∣ T.shape.getD d 0 then Except.ok (scatterChunk d W r T)
  else Except.error "size along scatter dim must be divisible by world size"

/-- Modelled from the spec: synchronous `gather` — collects all workers'
local shards along `dim`, concatenating in rank order, and returns the
reassembled full tensor on every worker.  `fam j` is rank `j`'s shard. -/
def gather (d W : Nat) (fam : Nat → NTensor) : NTensor :=
  { shape := (fam 0).shape.set d (W * (fam 0).shape.getD d 0),
    val := fun ix => (fam (ix.getD d 0 / (fam 0).shape.getD d 0)).val
      (ix.set d (ix.getD d 0 % (fam 0).shape.getD d 0)) }

/-- C2: for every tensor `T` and axis `d` with the size along `d` evenly
divisible by the worker count, `scatter` succeeds on every worker and
gathering the workers' chunks along `d` returns a tensor exactly equal to
`T` (on every worker, since the model's `gather` is rank-independent);
when the size along `d` is not divisible, `scatter` fails with the fatal
configuration error. -/
theorem gather_scatter_roundtrip_and_indivisible_error (T : NTensor)
    (d W r : Nat) (hd : d < T.shape.length) :
    (W ∣ T.shape.getD d 0 →
       (∀ r2, scatter d W r2 T = Except.ok (scatterChunk d W r2 T))
       ∧ gather d W (fun r2 => scatterChunk d W r2 T) = T)
  ∧ (¬ W ∣ T.shape.getD d 0 →
       scatter d W r T
         = Except.error "size along scatter dim must be divisible by world size") := by
  constructor
  · intro hdvd
    refine ⟨fun r2 => by unfold scatter; rw [if_pos hdvd], ?_⟩
    have hshape : (gather d W (fun r2 => scatterChunk d W r2 T)).shape = T.shape := by
      simp only [gather, scatterChunk, lgetD_set_self _ _ _ _ hd, List.set_set,
        Nat.mul_div_cancel' hdvd]
      exact lset_getD_self T.shape d hd
    have hval : (gather d W (fun r2 => scatterChunk d W r2 T)).val = T.val := by
      funext ix
      simp only [gather, scatterChunk, lgetD_set_self _ _ _ _ hd]
      by_cases hix : d < ix.length
      · rw [lgetD_set_self _ _ _ _ hix, List.set_set, Nat.div_add_mod',
          lset_getD_self ix d hix]
      · have hle : ix.length ≤ d := Nat.le_of_not_lt hix
        simp [List.set_eq_of_length_le hle, List.getD_eq_default _ _ hle]
    obtain ⟨s, v⟩ := T
    obtain ⟨hs, hv⟩ := And.intro hshape hval
    exact congrArg₂ NTensor.mk hs hv
  · intro hndvd
    unfold scatter
    rw [if_neg hndvd]

/-- A concrete rank-2 tensor for evaluating the collectives. -/
def sampleNT : NTensor :=
  { shape := [4, 6], val := fun ix => ((ix.getD 0 0 * 10 + ix.getD 1 0 : Nat) : ℚ) }

theorem gather_scatter_roundtrip_and_indivisible_error_witness :
    gather 1 2 (fun r2 => scatterChunk 1 2 r2 sampleNT) = sampleNT
  ∧ scatter 1 4 0 sampleNT
      = Except.error "size along scatter dim must be divisible by world size" :=
  ⟨((gather_scatter_roundtrip_and_indivisible_error sampleNT 1 2 0
      (by decide)).1 (by decide)).2,
   (gather_scatter_roundtrip_and_indivisible_error sampleNT 1 4 0
      (by decide)).2 (by decide)⟩

/-- C3: `row_to_col` on a row-sharded tensor loses and duplicates nothing:
the inverse column-to-row transform reproduces every rank's input shard
exactly (element ordering governed by the global row and column indices),
and the per-rank element count is invariant. -/
theorem rowToCol_inverse_and_count_invariant (T : T4) (W r : Nat)
    (hW : 0 < W) (hr : W ∣ T.nr) (hc : W ∣ T.nc) :
    colToRow W (fun r2 => rowToCol W (fun j => scatterRow W j T) r2) r
      = scatterRow W r T
  ∧ elemCount (rowToCol W (fun j => scatterRow W j T) r)
      = elemCount (scatterRow W r T) := by
  have hfam : (fun r2 => rowToCol W (fun j => scatterRow W j T) r2)
      = fun r2 => scatterCol W r2 T := by
    funext r2
    unfold rowToCol
    rw [gatherRow_scatterRow W T hr]
  constructor
  · rw [hfam]
    unfold colToRow
    rw [gatherCol_scatterCol W T hc]
  · rw [congrFun hfam r]
    obtain ⟨a, ha⟩ := hr
    obtain ⟨c2, hc2⟩ := hc
    simp only [elemCount, scatterCol, scatterRow, ha, hc2,
      Nat.mul_div_cancel_left _ hW]
    ring

theorem rowToCol_inverse_and_count_invariant_witness :
    colToRow 2 (fun r2 => rowToCol 2 (fun j => scatterRow 2 j sampleNode) r2) 1
      = scatterRow 2 1 sampleNode
  ∧ elemCount (rowToCol 2 (fun j => scatterRow 2 j sampleNode) 1)
      = elemCount (scatterRow 2 1 sampleNode) :=
  rowToCol_inverse_and_count_invariant sampleNode 2 1 (by decide) (by decide)
    (by decide)

/-- A numpy array: shape plus row-major flattened rational data. -/
structure NpArr where
  shape : List Nat
  data : List ℚ

/-- Translation of `np.zeros_like(a)`: same shape, all entries zero. -/
def zerosLike (a : NpArr) : NpArr :=
  { a with data := a.data.map (fun _ => 0) }

/-- Elementwise `arr + 1`, applied (used for `residue_index + 1`). -/
def npAddOne (a : NpArr) : NpArr :=
  { a with data := a.data.map (fun q => q + 1) }

/-- Indexing `arr[0]`: drop the leading dimension, keeping the first block; raises
`IndexError` on a 0-d or empty-leading-dimension array. -/
def npHead (a : NpArr) : Except String NpArr :=
  match a.shape with
  | [] => Except.error "IndexError: too many indices for array"
  | n :: rest =>
      if n = 0 then Except.error "IndexError: index 0 is out of bounds"
      else Except.ok { shape := rest, data := a.data.take rest.prod }

/-- Translation of `_maybe_remove_leading_dim` from `from_prediction`: `arr[0]` when the
flag is set, the array unchanged otherwise. -/
def maybeRemoveLeadingDim (flag : Bool) (a : NpArr) : Except String NpArr :=
  if flag then npHead a else Except.ok a

/-- Constant `PDB_CHAIN_IDS` from `np/protein.py`: the complete sequence of chain
IDs supported by the PDB format. -/
def PDB_CHAIN_IDS : String :=
  "ABCDEFGHIJKLMNOPQRSTUVWXYZabcdefghijklmnopqrstuvwxyz0123456789"

/-- Constant `PDB_MAX_CHAINS = len(PDB_CHAIN_IDS)` from `np/protein.py`. -/
def PDB_MAX_CHAINS : Nat := PDB_CHAIN_IDS.length

/-- The `Protein` dataclass from `np/protein.py`. -/
structure Protein where
  atom_positions : NpArr
  aatype : NpArr
  atom_mask : NpArr
  residue_index : NpArr
  b_factors : NpArr
  chain_index : NpArr
  remark : Option String
  parents : Option (List String)
  parents_chain_index : Option (List Int)

/-- Computation of `len(np.unique(chain_index))`: the number of distinct values in the
chain-index array. -/
def numUniqueChains (ci : NpArr) : Nat := ci.data.dedup.length

/-- Constructing a `Protein` runs `__post_init__`, which raises
`ValueError` when the chain-index array holds more than `PDB_MAX_CHAINS`
distinct values. -/
def mkProtein (ap aat am ri bf ci : NpArr) (rem : Option String)
    (par : Option (List String)) (pci : Option (List Int)) :
    Except String Protein :=
  if PDB_MAX_CHAINS < numUniqueChains ci then
    Except.error "Cannot build an instance with more chains because these cannot be written to PDB format"
  else
    Except.ok
      { atom_positions := ap, aatype := aat, atom_mask := am,
        residue_index := ri, b_factors := bf, chain_index := ci,
        remark := rem, parents := par, parents_chain_index := pci }

/-- C9: constructing a `Protein` whose `chain_index` holds more than 62
distinct values raises `ValueError`; with at most 62 distinct values the
chain-count check passes and construction succeeds.  (`PDB_MAX_CHAINS`,
the length of `PDB_CHAIN_IDS`, is 62.) -/
theorem protein_post_init_chain_limit (ap aat am ri bf ci : NpArr)
    (rem : Option String) (par : Option (List String))
    (pci : Option (List Int)) :
    PDB_MAX_CHAINS = 62
  ∧ (62 < numUniqueChains ci →
       mkProtein ap aat am ri bf ci rem par pci
         = Except.error "Cannot build an instance with more chains because these cannot be written to PDB format")
  ∧ (numUniqueChains ci ≤ 62 →
       mkProtein ap aat am ri bf ci rem par pci
         = Except.ok
             { atom_positions := ap, aatype := aat, atom_mask := am,
               residue_index := ri, b_factors := bf, chain_index := ci,
               remark := rem, parents := par, parents_chain_index := pci }) := by
  have h62 : PDB_MAX_CHAINS = 62 := rfl
  refine ⟨h62, fun hgt => ?_, fun hle => ?_⟩
  · unfold mkProtein
    rw [if_pos (h62 ▸ hgt)]
  · unfold mkProtein
    rw [if_neg (by rw [h62]; exact Nat.not_lt.mpr hle)]

/-- A concrete chain-index array with three distinct values. -/
def sampleChainIdx : NpArr := { shape := [4], data := [0, 0, 1, 2] }

/-- A concrete 1-D array of four zeros. -/
def sampleZeros4 : NpArr := { shape := [4], data := [0, 0, 0, 0] }

theorem protein_post_init_chain_limit_witness :
    numUniqueChains sampleChainIdx ≤ 62
  ∧ mkProtein sampleZeros4 sampleZeros4 sampleZeros4 sampleZeros4 sampleZeros4
      sampleChainIdx none none none
      = Except.ok
          { atom_positions := sampleZeros4, aatype := sampleZeros4,
            atom_mask := sampleZeros4, residue_index := sampleZeros4,
            b_factors := sampleZeros4, chain_index := sampleChainIdx,
            remark := none, parents := none, parents_chain_index := none } :=
  ⟨by decide,
   (protein_post_init_chain_limit sampleZeros4 sampleZeros4 sampleZeros4
      sampleZeros4 sampleZeros4 sampleChainIdx none none none).2.2 (by decide)⟩

/-- The model-output dictionary as consumed by `from_prediction`: the
optional `structure_module` sub-dictionary (whose keys may be absent) and
the top-level `final_atom_mask` / `final_atom_positions` entries. -/
structure FoldOut where
  final_atom_mask : Option NpArr
  final_atom_positions : Option NpArr

/-- The `result` argument of `from_prediction`. -/
structure ModelOut where
  structure_module : Option FoldOut
  final_atom_mask : NpArr
  final_atom_positions : NpArr

/-- The `features` argument of `from_prediction`: `asym_id` may be absent. -/
structure FeatDict where
  asym_id : Option NpArr
  aatype : NpArr
  residue_index : NpArr

/-- Indexing `fold_output["final_atom_mask"]` — direct indexing, raising `KeyError`
when `structure_module` is present but lacks the key. -/
def foldIndexMask (r : ModelOut) : Except String NpArr :=
  match r.structure_module with
  | some sm =>
      match sm.final_atom_mask with
      | some m => Except.ok m
      | none => Except.error "KeyError: final_atom_mask"
  | none => Except.ok r.final_atom_mask

/-- Translation of `fold_output.get("final_atom_mask", result["final_atom_mask"])`. -/
def foldGetMask (r : ModelOut) : NpArr :=
  match r.structure_module with
  | some sm => sm.final_atom_mask.getD r.final_atom_mask
  | none => r.final_atom_mask

/-- Translation of `fold_output.get("final_atom_positions", result["final_atom_positions"])`. -/
def foldGetPositions (r : ModelOut) : NpArr :=
  match r.structure_module with
  | some sm => sm.final_atom_positions.getD r.final_atom_positions
  | none => r.final_atom_positions

/-- The `b_factors` actually used: the argument when given, otherwise
`np.zeros_like(fold_output["final_atom_mask"])`. -/
def bFactorsOr (r : ModelOut) (bf : Option NpArr) : Except String NpArr :=
  match bf with
  | none => Except.map zerosLike (foldIndexMask r)
  | some b => Except.ok b

/-- The chain index `from_prediction` computes (lines 487-490 of
`np/protein.py`): `features["asym_id"]` with the leading dimension
optionally removed when present, otherwise zeros shaped like
`features["aatype"]`. -/
def predChainIndex (features : FeatDict) (rld : Bool) : Except String NpArr :=
  match features.asym_id with
  | some a => maybeRemoveLeadingDim rld a
  | none => Except.map zerosLike (maybeRemoveLeadingDim rld features.aatype)

/-- Translation of `from_prediction` from `np/protein.py`, step by step. -/
def from_prediction (features : FeatDict) (result : ModelOut)
    (b_factors : Option NpArr) (chain_index : Option NpArr)
    (remark : Option String) (parents : Option (List String))
    (parents_chain_index : Option (List Int))
    (remove_leading_feature_dimension : Bool) : Except String Protein := do
  let bf ← bFactorsOr result b_factors
  let atom_mask := foldGetMask result
  let atom_positions := foldGetPositions result
  let ci ← predChainIndex features remove_leading_feature_dimension
  let aat ← maybeRemoveLeadingDim remove_leading_feature_dimension features.aatype
  let ri ← maybeRemoveLeadingDim remove_leading_feature_dimension
    features.residue_index
  mkProtein atom_positions aat atom_mask (npAddOne ri) bf ci remark parents
    parents_chain_index

theorem except_bind_ok {α β : Type} {e : Except String α}
    {f : α → Except String β} {b : β} (h : e >>= f = Except.ok b) :
    ∃ a, e = Except.ok a ∧ f a = Except.ok b := by
  cases e with
  | error s => exact Except.noConfusion h
  | ok a => exact ⟨a, rfl, h⟩

/-- C10: the explicit `chain_index` argument of `from_prediction` is
ignored — the result is identical for any two values of that argument, and
whenever `from_prediction` returns a `Protein`, its `chain_index` field is
the one recomputed from `features` (`asym_id`, leading dimension removed
when requested, else zeros shaped like `aatype`). -/
theorem from_prediction_ignores_chain_index_argument (features : FeatDict)
    (result : ModelOut) (bf ci ci2 : Option NpArr) (rem : Option String)
    (par : Option (List String)) (pci : Option (List Int)) (rld : Bool) :
    from_prediction features result bf ci rem par pci rld
      = from_prediction features result bf ci2 rem par pci rld
  ∧ (∀ p, from_prediction features result bf ci rem par pci rld = Except.ok p →
       predChainIndex features rld = Except.ok p.chain_index) := by
  refine ⟨rfl, fun p hp => ?_⟩
  unfold from_prediction at hp
  obtain ⟨bv, hbv, hp⟩ := except_bind_ok hp
  obtain ⟨civ, hci, hp⟩ := except_bind_ok hp
  obtain ⟨aatv, haat, hp⟩ := except_bind_ok hp
  obtain ⟨riv, hri, hp⟩ := except_bind_ok hp
  unfold mkProtein at hp
  by_cases hgt : PDB_MAX_CHAINS < numUniqueChains civ
  · rw [if_pos hgt] at hp
    exact Except.noConfusion hp
  · rw [if_neg hgt] at hp
    have hpp := (Except.ok.injEq _ _).mp hp
    rw [hci, ← hpp]

/-- A concrete `asym_id` feature with two distinct chains. -/
def sampleAsym : NpArr := { shape := [3], data := [0, 1, 1] }

/-- A concrete `aatype` feature. -/
def sampleAat : NpArr := { shape := [3], data := [5, 6, 7] }

/-- A concrete `residue_index` feature. -/
def sampleResIdx : NpArr := { shape := [3], data := [0, 1, 2] }

/-- A concrete feature dictionary with `asym_id` present. -/
def sampleFeats : FeatDict :=
  { asym_id := some sampleAsym, aatype := sampleAat,
    residue_index := sampleResIdx }

/-- A concrete model output without a `structure_module` entry. -/
def sampleResult : ModelOut :=
  { structure_module := none, final_atom_mask := sampleZeros4,
    final_atom_positions := sampleZeros4 }

/-- The protein `from_prediction` produces on the concrete sample. -/
def sampleProt : Protein :=
  { atom_positions := sampleZeros4, aatype := sampleAat,
    atom_mask := sampleZeros4, residue_index := npAddOne sampleResIdx,
    b_factors := zerosLike sampleZeros4, chain_index := sampleAsym,
    remark := none, parents := none, parents_chain_index := none }

theorem from_prediction_ignores_chain_index_argument_witness :
    from_prediction sampleFeats sampleResult none (some sampleChainIdx) none
        none none false
      = from_prediction sampleFeats sampleResult none (some sampleZeros4) none
        none none false
  ∧ predChainIndex sampleFeats false = Except.ok sampleProt.chain_index :=
  ⟨(from_prediction_ignores_chain_index_argument sampleFeats sampleResult none
      (some sampleChainIdx) (some sampleZeros4) none none none false).1,
   (from_prediction_ignores_chain_index_argument sampleFeats sampleResult none
      (some sampleChainIdx) (some sampleZeros4) none none none false).2
     sampleProt rfl⟩
